import Mathlib

/-!
Shallow embedding of src/dynamic_model.py (class DynamicModel): the
connection and transaction lifecycle, the TTL schema cache, the DDL
methods, the hook pipeline, the write paths and the entity
operations, together with theorems settling the specification
claims about them.
-/

namespace DM

/-- A SQL value as the model stores it in a row: NULL, boolean,
integer, text or timestamp.  Mirrors the Python values read and
written by DynamicModel. -/
inductive Value where
  | null
  | bool (b : Bool)
  | int (n : Int)
  | str (s : String)
  | ts (t : Nat)
deriving DecidableEq

/-- A row, as a Python dict: association list from column name to
value, in insertion order. -/
abbrev Row := List (String × Value)

/-- Dict read: first binding of the column, if any. -/
def rowGet (r : Row) (c : String) : Option Value :=
  (r.find? (fun p => p.1 == c)).map (fun p => p.2)

/-- Dict write: replace the binding in place when the key exists,
append it otherwise (Python dict assignment). -/
def rowSet (r : Row) (c : String) (v : Value) : Row :=
  match r with
  | [] => [(c, v)]
  | p :: rest => if p.1 == c then (c, v) :: rest else p :: rowSet rest c v

/-! ### Engine-side transaction semantics

The code drives one postgres connection with implicit BEGIN,
COMMIT, ROLLBACK, SAVEPOINT, RELEASE SAVEPOINT and ROLLBACK TO
SAVEPOINT.  A connection is modelled by its committed writes, the
writes pending in the open transaction, and the savepoint stack
(name plus the pending-length mark taken at creation; head of the
list is the top of the stack).  Row payloads are abstract. -/

structure Conn where
  committed : List Nat
  pending : List Nat
  savepoints : List (String × Nat)
deriving DecidableEq

/-- Engine COMMIT: pending work becomes durable, savepoints are
discarded. -/
def connCommit (c : Conn) : Conn :=
  { committed := c.committed ++ c.pending, pending := [], savepoints := [] }

/-- Engine ROLLBACK: pending work and savepoints are discarded. -/
def connRollback (c : Conn) : Conn :=
  { c with pending := [], savepoints := [] }

/-- Engine SAVEPOINT name: push the current pending mark. -/
def connSavepoint (c : Conn) (nm : String) : Conn :=
  { c with savepoints := (nm, c.pending.length) :: c.savepoints }

/-- Engine ROLLBACK TO SAVEPOINT name: drop work done above the
topmost savepoint of that name; the savepoint itself survives.  A
missing name is a store error, unreachable in the modelled flows,
and is mapped to a no-op. -/
def connRollbackTo (c : Conn) (nm : String) : Conn :=
  match c.savepoints.dropWhile (fun p => !(p.1 == nm)) with
  | [] => c
  | (m, mark) :: rest =>
      { c with pending := c.pending.take mark, savepoints := (m, mark) :: rest }

/-- Engine RELEASE SAVEPOINT name: pop the topmost savepoint of
that name, keeping the work. -/
def connRelease (c : Conn) (nm : String) : Conn :=
  match c.savepoints.dropWhile (fun p => !(p.1 == nm)) with
  | [] => c
  | _ :: rest => { c with savepoints := rest }

/-! ### DynamicModel.transaction in single-connection mode
(src/dynamic_model.py lines 867-920) -/

/-- Thread-side transaction state in single-connection mode: the
engine connection, whether the thread-local binding (cls._local.conn)
is set, and the nesting depth. -/
structure TxState where
  conn : Conn
  bound : Bool
  depth : Nat
deriving DecidableEq

/-- transaction entry, outermost branch (lines 879-884): reserve the
connection, bind it to the thread, depth 1. -/
def txBeginOuter (s : TxState) : TxState :=
  { s with bound := true, depth := 1 }

/-- transaction entry, nested branch (lines 885-895): reuse the bound
connection, increment depth, issue SAVEPOINT under the generated
name. -/
def txBeginNested (s : TxState) (nm : String) : TxState :=
  { s with depth := s.depth + 1, conn := connSavepoint s.conn nm }

/-- transaction exit of a nested level on exception (lines 902-907
plus the finally block lines 919-920): ROLLBACK TO SAVEPOINT for the
level, then decrement depth. -/
def txAbortNested (s : TxState) (nm : String) : TxState :=
  { s with conn := connRollbackTo s.conn nm, depth := s.depth - 1 }

/-- transaction exit of a nested level on normal fall-through
(lines 899-901 plus lines 919-920): RELEASE SAVEPOINT, decrement
depth. -/
def txReleaseNested (s : TxState) (nm : String) : TxState :=
  { s with conn := connRelease s.conn nm, depth := s.depth - 1 }

/-- transaction normal exit of the outermost level in
single-connection mode (lines 897-898 and 909-918): engine commit,
then the finally block unbinds the thread-local connection and resets
the depth. -/
def txCommitOuter (s : TxState) : TxState :=
  { conn := connCommit s.conn, bound := false, depth := 0 }

/-- A DML write through _get_cursor (lines 142-169): inside a
transaction the statement joins the pending work of the bound
connection and is not committed; outside, it is committed at once
(autocommit path). -/
def txWrite (s : TxState) (w : Nat) : TxState :=
  if s.bound then
    { s with conn := { s.conn with pending := s.conn.pending ++ [w] } }
  else
    { s with conn := { s.conn with committed := s.conn.committed ++ [w] } }

/-- The C1 operation sequence: begin the outer transaction, write a,
begin a nested transaction (savepoint nm), write b, abort the nested
level, commit the outer level. -/
def nestedAbortRun (s : TxState) (a b : Nat) (nm : String) : TxState :=
  txCommitOuter (txAbortNested (txWrite (txBeginNested (txWrite (txBeginOuter s) a) nm) b) nm)

/-! ### DynamicModel.transaction in pool mode
(lines 867-920 with lines 121-139) -/

/-- Process and thread state in pool mode: the free connections of
the pool (cls._pool), whether a pool is configured, the thread-local
bound connection and depth (cls._local), and the engine commits that
were issued, recorded to observe the commit step. -/
structure PoolState where
  pool : List Nat
  hasPool : Bool
  localConn : Option Nat
  depth : Nat
  commits : List Nat
deriving DecidableEq

/-- DynamicModel._in_transaction (lines 121-123): the thread-local
connection is set. -/
def inTransaction (s : PoolState) : Bool := s.localConn.isSome

/-- DynamicModel._release_connection (lines 136-139): putconn only
when a pool is configured and the thread is not in a transaction. -/
def releaseConnection (s : PoolState) (c : Nat) : PoolState :=
  if s.hasPool && !(inTransaction s) then { s with pool := c :: s.pool } else s

/-- Pool acquisition in _current_connection (lines 125-134) when no
transaction is bound: take a free connection from the pool. -/
def poolGetconn (s : PoolState) : Option (Nat × PoolState) :=
  match s.pool with
  | [] => none
  | c :: rest => some (c, { s with pool := rest })

/-- DynamicModel.transaction in pool mode, outermost level, body
exiting normally (lines 879-884, 896-898 and the finally block,
lines 909-918): acquire and bind a connection, commit on exit, then
when a pool is configured call _release_connection, and only
afterwards clear the thread-local binding and the depth.  The order
of the release and the unbinding is exactly that of the source. -/
def transactionPoolOuter (s : PoolState) : Option PoolState :=
  match poolGetconn s with
  | none => none
  | some (c, s1) =>
      let s2 := { s1 with localConn := some c, depth := 1 }
      let s3 := { s2 with commits := s2.commits ++ [c] }
      let s4 := if s3.hasPool then releaseConnection s3 c else s3
      some { s4 with localConn := none, depth := 0 }

/-! ### Schema cache (lines 206-273) -/

/-- One catalog row of information_schema.columns as
inspect_schema fetches and caches it: name, type, nullability,
default. -/
structure ColumnMeta where
  column_name : String
  data_type : String
  is_nullable : Bool
  column_default : Option String
deriving DecidableEq

/-- cls._schema_cache: mapping from cache key to (fetched_at,
columns), as an association list in insertion order (a Python
dict). -/
abbrev SchemaCache := List (String × Int × List ColumnMeta)

/-- DynamicModel._cache_key (lines 212-214). -/
def cacheKey (table : String) : String := "public." ++ table

/-- Dict read on the schema cache. -/
def cacheFind (cache : SchemaCache) (k : String) : Option (Int × List ColumnMeta) :=
  (cache.find? (fun e => e.1 == k)).map (fun e => e.2)

/-- Dict write on the schema cache (replace or append). -/
def cacheStore (cache : SchemaCache) (k : String) (v : Int × List ColumnMeta) :
    SchemaCache :=
  if cache.any (fun e => e.1 == k) then
    cache.map (fun e => if e.1 == k then (k, v) else e)
  else cache ++ [(k, v)]

/-- DynamicModel._invalidate_schema_cache (lines 216-218): dict pop
of the key of the table. -/
def cacheRemove (cache : SchemaCache) (table : String) : SchemaCache :=
  cache.filter (fun e => !(e.1 == cacheKey table))

/-- DynamicModel.set_schema_cache_ttl (lines 208-210): clamp at 0. -/
def setSchemaCacheTtl (seconds : Int) : Int := max 0 seconds

/-- DynamicModel.inspect_schema (lines 220-244).  ttl is
cls._schema_cache_ttl_seconds, now the current clock, catalog the
store-side column metadata per table.  A cached entry is served when
ttl equals 0 or now minus fetched_at is below ttl; otherwise the
catalog is queried and the entry stored under (now, columns).
Returns the columns and the cache after the call. -/
def inspectSchema (ttl : Int) (now : Int) (catalog : String → List ColumnMeta)
    (cache : SchemaCache) (table : String) : List ColumnMeta × SchemaCache :=
  match cacheFind cache (cacheKey table) with
  | some (ts, infos) =>
      if ttl = 0 ∨ now - ts < ttl then (infos, cache)
      else (catalog table, cacheStore cache (cacheKey table) (now, catalog table))
  | none => (catalog table, cacheStore cache (cacheKey table) (now, catalog table))

/-! ### DDL methods and their cache effect (lines 252-273, 301-328,
1014-1067) -/

/-- The DDL statements the modelled methods issue, at the structural
level at which psycopg2.sql composes them. -/
inductive Stmt where
  | alterAddColumns (table : String) (cols : List (String × String))
  | createTable (table : String) (schema : List (String × String))
  | dropTable (table : String) (cascade : Bool)
  | createIndex (unique : Bool) (idxName table column : String)
  | addUniqueConstraint (table constraintName : String) (cols : List String)
  | dropColumn (table column : String)
  | renameColumn (table oldName newName : String)
deriving DecidableEq

/-- Process state a DDL method touches: the journal of issued
statements and the schema cache. -/
structure DdlState where
  issued : List Stmt
  cache : SchemaCache
deriving DecidableEq

/-- DynamicModel.ensure_columns (lines 252-273): empty input returns
at once; otherwise one ALTER TABLE ADD COLUMN IF NOT EXISTS per
column is issued and the cache entry of the table is invalidated. -/
def ensureColumns (st : DdlState) (table : String) (columns : List (String × String)) :
    DdlState :=
  if columns.isEmpty then st
  else
    { issued := st.issued ++ [Stmt.alterAddColumns table columns],
      cache := cacheRemove st.cache table }

/-- DynamicModel.create_table (lines 301-317): CREATE TABLE IF NOT
EXISTS, then cache invalidation. -/
def createTable (st : DdlState) (table : String) (schema : List (String × String)) :
    DdlState :=
  { issued := st.issued ++ [Stmt.createTable table schema],
    cache := cacheRemove st.cache table }

/-- DynamicModel.drop_table (lines 319-328): DROP TABLE IF EXISTS,
then cache invalidation. -/
def dropTable (st : DdlState) (table : String) (cascade : Bool) : DdlState :=
  { issued := st.issued ++ [Stmt.dropTable table cascade],
    cache := cacheRemove st.cache table }

/-- DynamicModel.drop_column (lines 1027-1035): ALTER TABLE DROP
COLUMN IF EXISTS, then cache invalidation. -/
def dropColumn (st : DdlState) (table column : String) : DdlState :=
  { issued := st.issued ++ [Stmt.dropColumn table column],
    cache := cacheRemove st.cache table }

/-- DynamicModel.rename_column (lines 1037-1045): ALTER TABLE RENAME
COLUMN, then cache invalidation. -/
def renameColumn (st : DdlState) (table oldName newName : String) : DdlState :=
  { issued := st.issued ++ [Stmt.renameColumn table oldName newName],
    cache := cacheRemove st.cache table }

/-- DynamicModel.add_index (lines 1014-1025): CREATE INDEX IF NOT
EXISTS under the derived index name.  The method does not touch the
schema cache. -/
def addIndex (st : DdlState) (table column : String) (unique : Bool) : DdlState :=
  { st with issued := st.issued ++
      [Stmt.createIndex unique
        (table ++ "_" ++ column ++ "_" ++ (if unique then "uniq" else "idx"))
        table column] }

/-- DynamicModel.add_unique (lines 1047-1058): ALTER TABLE ADD
CONSTRAINT UNIQUE under the given or derived constraint name.  The
method does not touch the schema cache. -/
def addUnique (st : DdlState) (table : String) (cols : List String)
    (name : Option String) : DdlState :=
  { st with issued := st.issued ++
      [Stmt.addUniqueConstraint table
        (name.getD (table ++ "_" ++ String.intercalate "_" cols ++ "_uniq")) cols] }

/-- A column list used by concrete cache scenarios. -/
def colsA : List ColumnMeta := [⟨"id", "integer", false, some "serial"⟩]

/-- A second, different column list used by concrete cache
scenarios. -/
def colsB : List ColumnMeta :=
  [⟨"id", "integer", false, some "serial"⟩, ⟨"extra", "text", true, none⟩]

/-! ### Hook pipeline (lines 171-204) -/

/-- A hook callback: receives the mutable field map, may rewrite it,
may raise (Except.error). -/
abbrev Hook := Row → Except String Row

/-- cls._before_hooks / cls._after_hooks: dict from table name (or
the wildcard star key) to the registered callbacks in registration
order. -/
structure HookState where
  beforeHooks : List (String × List Hook)
  afterHooks : List (String × List Hook)

/-- Registry with nothing registered. -/
def emptyHooks : HookState := { beforeHooks := [], afterHooks := [] }

/-- hooks.get(key, []) on a registry dict. -/
def hooksFor (m : List (String × List Hook)) (k : String) : List Hook :=
  match m.find? (fun e => e.1 == k) with
  | some e => e.2
  | none => []

/-- Run a list of before-hooks in order, threading the row; the
first failure aborts the run. -/
def runBeforeList (hooks : List Hook) (r : Row) : Except String Row :=
  match hooks with
  | [] => Except.ok r
  | h :: rest =>
      match h r with
      | Except.ok r2 => runBeforeList rest r2
      | Except.error e => Except.error e

/-- DynamicModel._run_before_hooks (lines 186-194): wildcard hooks
first, then table hooks; a raising hook is wrapped into a RuntimeError
that propagates. -/
def runBeforeHooks (hs : HookState) (table : String) (r : Row) : Except String Row :=
  match runBeforeList (hooksFor hs.beforeHooks "*") r with
  | Except.error e => Except.error ("Fehler im BEFORE-Hook (*): " ++ e)
  | Except.ok r1 =>
      match runBeforeList (hooksFor hs.beforeHooks table) r1 with
      | Except.error e => Except.error ("Fehler im BEFORE-Hook (" ++ table ++ "): " ++ e)
      | Except.ok r2 => Except.ok r2

/-- One after-hook run with its failure caught and discarded
(lines 196-204): on error the row stands as it was and the loop
continues. -/
def runAfterOne (r : Row) (h : Hook) : Row :=
  match h r with
  | Except.ok r2 => r2
  | Except.error _ => r

/-- DynamicModel._run_after_hooks (lines 196-204): wildcard hooks
then table hooks, every failure swallowed. -/
def runAfterHooks (hs : HookState) (table : String) (r : Row) : Row :=
  (hooksFor hs.afterHooks "*" ++ hooksFor hs.afterHooks table).foldl runAfterOne r

/-! ### Write paths: create, upsert, update_by_conditions
(lines 516-619 and 741-760) -/

/-- The data-side state of one table: its name, its column names
(the catalog as the code sees it through inspect_schema), its rows
keyed by id, and the next id the serial primary key will assign. -/
structure TableState where
  name : String
  schema : List String
  rows : List (Int × Row)
  nextId : Int
deriving DecidableEq

/-- Row lookup by primary key. -/
def lookupById (t : TableState) (i : Int) : Option Row :=
  (t.rows.find? (fun p => p.1 == i)).map (fun p => p.2)

/-- Read one column of the row with the given id. -/
def rowGetById (t : TableState) (i : Int) (c : String) : Option Value :=
  match lookupById t i with
  | some r => rowGet r c
  | none => none

/-- The missing-column loop of create (lines 528-543): for every
field not yet in the schema, except id, issue ALTER TABLE ADD COLUMN
IF NOT EXISTS and record the column.  Only the schema changes; rows
and next id stay. -/
def addMissingColumns (t : TableState) (kwargs : Row) : TableState :=
  match kwargs with
  | [] => t
  | p :: rest =>
      addMissingColumns
        (if p.1 == "id" || t.schema.contains p.1 then t
         else { t with schema := t.schema ++ [p.1] }) rest

/-- The missing-column loop of upsert (lines 578-591), which does
not except the id column. -/
def addMissingColumnsUpsert (t : TableState) (values : Row) : TableState :=
  match values with
  | [] => t
  | p :: rest =>
      addMissingColumnsUpsert
        (if t.schema.contains p.1 then t
         else { t with schema := t.schema ++ [p.1] }) rest

/-- DynamicModel.create (lines 516-561): reject a missing table,
add missing columns, run the before-hooks on the field map (their
failure propagates with the state reached so far, and the insert is
never issued), insert the hook-transformed row under the next serial
id with an autocommit, then run the after-hooks, whose failures are
swallowed and whose rewrites of the field map are discarded.
Returns the new state and the new id, or the error message together
with the state at the moment of the raise. -/
def createModel (hs : HookState) (t : TableState) (kwargs : Row) :
    Except (String × TableState) (TableState × Int) :=
  if t.schema.isEmpty then Except.error ("Tabelle existiert nicht", t)
  else
    match runBeforeHooks hs t.name kwargs with
    | Except.error e => Except.error (e, addMissingColumns t kwargs)
    | Except.ok row2 =>
        let t1 := addMissingColumns t kwargs
        let t2 := { t1 with rows := t1.rows ++ [(t1.nextId, row2)],
                            nextId := t1.nextId + 1 }
        let _rowAfter := runAfterHooks hs t2.name row2
        Except.ok (t2, t1.nextId)

/-- The ON CONFLICT target test: the row agrees with the incoming
values on every conflict column. -/
def conflictRowMatches (conflictCols : List String) (values : Row) (r : Row) : Bool :=
  conflictCols.all (fun c => rowGet r c == rowGet values c)

/-- The default update-column list of upsert (lines 597-598): the
value keys that are neither conflict columns nor id. -/
def defaultUpdateCols (values : Row) (conflictCols : List String) : List String :=
  (values.map (fun p => p.1)).filter
    (fun c => !(conflictCols.contains c) && !(c == "id"))

/-- DynamicModel.upsert (lines 563-619): add missing columns, then
INSERT ... ON CONFLICT DO UPDATE SET col = EXCLUDED.col RETURNING id.
On a conflicting row the named update columns are overwritten from
the incoming values and the id of that row is returned; otherwise the
values are inserted under the next serial id.  The hook registry is
in scope (class state) but, unlike create, upsert never consults
it. -/
def upsertModel (_hs : HookState) (t : TableState) (conflictCols : List String)
    (values : Row) (updateCols : Option (List String)) :
    Except (String × TableState) (TableState × Int) :=
  let t1 := addMissingColumnsUpsert t values
  let ucols := updateCols.getD (defaultUpdateCols values conflictCols)
  match t1.rows.find? (fun p => conflictRowMatches conflictCols values p.2) with
  | some p =>
      let newRow := ucols.foldl
        (fun r c => rowSet r c ((rowGet values c).getD Value.null)) p.2
      Except.ok
        ({ t1 with rows := t1.rows.map (fun q => if q.1 == p.1 then (q.1, newRow) else q) },
          p.1)
  | none =>
      Except.ok
        ({ t1 with rows := t1.rows ++ [(t1.nextId, values)], nextId := t1.nextId + 1 },
          t1.nextId)

/-- A condition value of _build_conditions (lines 332-344): a scalar
compares by equality, a collection becomes a membership test
(column = ANY of the values). -/
inductive CondVal where
  | scalar (v : Value)
  | anyOf (vs : List Value)
deriving DecidableEq

/-- One condition applied to a row.  A NULL stored value never
matches a scalar in SQL; the model compares values directly, which
agrees on every non-NULL comparison used here. -/
def condMatches (r : Row) (c : String × CondVal) : Bool :=
  match c.2 with
  | CondVal.scalar v => rowGet r c.1 == some v
  | CondVal.anyOf vs =>
      match rowGet r c.1 with
      | some v => vs.contains v
      | none => false

/-- All conditions of a WHERE clause, AND-joined. -/
def condsMatch (r : Row) (conds : List (String × CondVal)) : Bool :=
  conds.all (fun c => condMatches r c)

/-- DynamicModel.update_by_conditions (lines 741-760): empty updates
return rowcount 0 at once; otherwise UPDATE SET the given columns on
every row matching the conditions and return the rowcount.  As with
upsert, the hook registry is never consulted. -/
def updateByConditionsModel (_hs : HookState) (t : TableState) (updates : Row)
    (conds : List (String × CondVal)) : TableState × Nat :=
  if updates.isEmpty then (t, 0)
  else
    ({ t with rows :=
        (t.rows.map (fun p =>
          if condsMatch p.2 conds then
            (p.1, updates.foldl (fun r u => rowSet r u.1 u.2) p.2)
          else p)) },
      t.rows.countP (fun p => condsMatch p.2 conds))

/-! ### Entity instances: optimistic locking and soft-delete restore
(lines 1283-1411 and 778-828) -/

/-- A live row proxy (instance state of DynamicModel): table, id,
schema snapshot at load time, in-memory field values. -/
structure Entity where
  table : String
  id : Int
  columns : List String
  data : Row
deriving DecidableEq

/-- The SQL expression version = version + 1 applied to the stored
value of the version column. -/
def vinc : Value → Value
  | Value.int n => Value.int (n + 1)
  | v => v

/-- DynamicModel.save_with_version (lines 1390-1411): a missing
version column raises a ValueError; otherwise one conditional
UPDATE sets every non-key column from the in-memory snapshot and
version = version + 1 on the rows matching id and the remembered
version.  Success means rowcount 1; only then is the in-memory
version advanced.  The boolean result is the only conflict
signal. -/
def saveWithVersion (t : TableState) (e : Entity) (vcol : String) :
    Except String (TableState × Entity × Bool) :=
  if e.columns.contains vcol then
    let current := (rowGet e.data vcol).getD (Value.int 0)
    let cols := e.columns.filter (fun c => !(c == "id") && !(c == vcol))
    let matched := fun (p : Int × Row) => p.1 == e.id && rowGet p.2 vcol == some current
    let setRow := fun (r : Row) =>
      rowSet (cols.foldl (fun acc c => rowSet acc c ((rowGet e.data c).getD Value.null)) r)
        vcol (vinc ((rowGet r vcol).getD Value.null))
    let newRows := t.rows.map (fun p => if matched p then (p.1, setRow p.2) else p)
    let updated := t.rows.countP matched == 1
    let e2 := if updated then { e with data := rowSet e.data vcol (vinc current) } else e
    Except.ok ({ t with rows := newRows }, e2, updated)
  else Except.error "Version-Spalte existiert nicht - nutze ensure_version_column()."

/-- DynamicModel.restore_soft_deleted (lines 814-828): when either
of the columns deleted_at or deleted is absent from the snapshot the
method returns at once, issuing nothing; otherwise one UPDATE sets
deleted_at to NULL and deleted to FALSE on the row of the entity and
the in-memory snapshot follows. -/
def restoreSoftDeleted (t : TableState) (e : Entity) : TableState × Entity :=
  if !(e.columns.contains "deleted_at") || !(e.columns.contains "deleted") then (t, e)
  else
    ({ t with rows :=
        (t.rows.map (fun p =>
          if p.1 == e.id then
            (p.1, rowSet (rowSet p.2 "deleted_at" Value.null) "deleted" (Value.bool false))
          else p)) },
      { e with data :=
          rowSet (rowSet e.data "deleted_at" Value.null) "deleted" (Value.bool false) })

/-! ### Read path: find_ids, first, last, get_by
(lines 346-406 and 462-475) -/

/-- Cross-type rank used to make the ORDER BY comparison total. -/
def valueRank : Value → Nat
  | Value.null => 0
  | Value.bool _ => 1
  | Value.int _ => 2
  | Value.str _ => 3
  | Value.ts _ => 4

/-- The ORDER BY comparison on stored values. -/
def valueLe (a b : Value) : Bool :=
  match a, b with
  | Value.bool x, Value.bool y => !x || y
  | Value.int x, Value.int y => decide (x ≤ y)
  | Value.str x, Value.str y => decide (x ≤ y)
  | Value.ts x, Value.ts y => decide (x ≤ y)
  | _, _ => decide (valueRank a ≤ valueRank b)

/-- Stable insertion into a sorted list. -/
def insertLe {α : Type} (le : α → α → Bool) (x : α) : List α → List α
  | [] => [x]
  | y :: ys => if le y x then y :: insertLe le x ys else x :: y :: ys

/-- Stable insertion sort under a boolean comparison. -/
def sortLe {α : Type} (le : α → α → Bool) (l : List α) : List α :=
  l.foldr (insertLe le) []

/-- The column named by an ORDER BY entry: the entry with every
leading dash stripped (str.lstrip of the source, line 392). -/
def orderSpecColumn (spec : String) : String :=
  String.mk (spec.data.dropWhile (fun c => c == '-'))

/-- Direction of an ORDER BY entry: descending when the entry starts
with a dash (line 391). -/
def orderSpecDesc (spec : String) : Bool := spec.startsWith "-"

/-- Row comparison for one ORDER BY entry. -/
def rowOrderLe (col : String) (desc : Bool) (p q : Int × Row) : Bool :=
  if desc then valueLe ((rowGet q.2 col).getD Value.null) ((rowGet p.2 col).getD Value.null)
  else valueLe ((rowGet p.2 col).getD Value.null) ((rowGet q.2 col).getD Value.null)

/-- ORDER BY over several entries: stable sorts composed from the
least significant entry outwards. -/
def orderRows (orderBy : List String) (rows : List (Int × Row)) : List (Int × Row) :=
  orderBy.foldr
    (fun spec acc => sortLe (rowOrderLe (orderSpecColumn spec) (orderSpecDesc spec)) acc)
    rows

/-- DynamicModel._has_column through the schema (lines 246-249). -/
def hasColumnT (t : TableState) (c : String) : Bool := t.schema.contains c

/-- The soft-delete filter COALESCE(deleted, FALSE) = FALSE
(line 360): only a stored boolean TRUE excludes the row. -/
def notDeletedRow (r : Row) : Bool :=
  match rowGet r "deleted" with
  | some (Value.bool true) => false
  | _ => true

/-- DynamicModel.find_ids (lines 371-406): filter by the conditions,
append the soft-delete filter when asked for and the table has a
deleted column, order, apply offset and limit, return the ids. -/
def findIdsModel (t : TableState) (orderBy : List String) (excludeDeleted : Bool)
    (limit offsetN : Option Nat) (conds : List (String × CondVal)) : List Int :=
  let base := t.rows.filter (fun p => condsMatch p.2 conds)
  let base2 :=
    if excludeDeleted && hasColumnT t "deleted" then
      base.filter (fun p => notDeletedRow p.2)
    else base
  let sorted := orderRows orderBy base2
  let paged := match offsetN with
    | some o => sorted.drop o
    | none => sorted
  let paged2 := match limit with
    | some l => paged.take l
    | none => paged
  paged2.map (fun p => p.1)

/-- DynamicModel.first (lines 462-465): ascending by id, limit 1;
the empty id list yields None instead of an error. -/
def firstModel (t : TableState) (excludeDeleted : Bool)
    (conds : List (String × CondVal)) : Option Int :=
  match findIdsModel t ["id"] excludeDeleted (some 1) none conds with
  | [] => none
  | i :: _ => some i

/-- DynamicModel.last (lines 467-470): descending by id, limit 1;
the empty id list yields None instead of an error. -/
def lastModel (t : TableState) (excludeDeleted : Bool)
    (conds : List (String × CondVal)) : Option Int :=
  match findIdsModel t ["-id"] excludeDeleted (some 1) none conds with
  | [] => none
  | i :: _ => some i

/-- DynamicModel.get_by (lines 472-475): no ordering, limit 1; the
empty id list yields None instead of an error. -/
def getByModel (t : TableState) (excludeDeleted : Bool)
    (conds : List (String × CondVal)) : Option Int :=
  match findIdsModel t [] excludeDeleted (some 1) none conds with
  | [] => none
  | i :: _ => some i

/-! ### Savepoint names (lines 889-895 and 922-934) -/

/-- Decimal digit rendered as its character. -/
def digitChar (d : Nat) : Char :=
  match d with
  | 0 => '0'
  | 1 => '1'
  | 2 => '2'
  | 3 => '3'
  | 4 => '4'
  | 5 => '5'
  | 6 => '6'
  | 7 => '7'
  | 8 => '8'
  | _ => '9'

/-- Little-endian decimal digits of n, with explicit fuel so the
recursion is structural. -/
def digitsLE (fuel n : Nat) : List Nat :=
  match fuel with
  | 0 => []
  | f + 1 => if n = 0 then [] else n % 10 :: digitsLE f (n / 10)

/-- Decimal rendering of a natural number: the embedding of the
Python str(int) interpolation used inside the f-strings. -/
def natRepr (n : Nat) : String :=
  if n = 0 then "0" else String.mk ((digitsLE n n).reverse.map digitChar)

/-- The savepoint name DynamicModel.transaction derives for a nested
level (line 893): sp, the millisecond clock reading, and the id of
the connection object, joined by underscores. -/
def txSavepointName (ms connId : Nat) : String :=
  "sp_" ++ natRepr ms ++ "_" ++ natRepr connId

/-- The savepoint name DynamicModel.savepoint derives when the
caller supplies none (line 931): sp and the millisecond clock
reading. -/
def explicitSavepointName (ms : Nat) : String := "sp_" ++ natRepr ms

/-- The names a connection receives for a sequence of
nested-transaction savepoints, one per creation, given the
millisecond clock readings at the creations. -/
def txSavepointNames (connId : Nat) (times : List Nat) : List String :=
  times.map (fun t => txSavepointName t connId)

/-- The names a connection receives for a sequence of unnamed
explicit savepoint() calls, one per creation, given the millisecond
clock readings at the creations. -/
def explicitSavepointNames (times : List Nat) : List String :=
  times.map (fun t => explicitSavepointName t)

/-- Horner decode of a big-endian digit-character list; left inverse
of the decimal rendering, used to prove the rendering injective. -/
def decodeDecimal (cs : List Char) : Nat :=
  cs.foldl (fun a c => a * 10 + (c.toNat - 48)) 0

/-- Value of a little-endian digit list. -/
def valLE (l : List Nat) : Nat :=
  l.foldr (fun d acc => d + 10 * acc) 0

/-! ### Concrete fixtures for witnesses and counterexamples -/

/-- An empty two-column table. -/
def tEmpty : TableState :=
  { name := "t", schema := ["id", "a"], rows := [], nextId := 1 }

/-- A two-column table holding one row with a = 1. -/
def tOneRow : TableState :=
  { name := "t", schema := ["id", "a"],
    rows := [(1, [("id", Value.int 1), ("a", Value.int 1)])], nextId := 2 }

/-- A registry whose single wildcard before-hook rejects every
row. -/
def hsReject : HookState :=
  { beforeHooks := [("*", [fun _ => Except.error "reject"])], afterHooks := [] }

/-- A registry whose single before-hook for table t rejects every
row. -/
def hsBoom : HookState :=
  { beforeHooks := [("t", [fun _ => Except.error "boom"])], afterHooks := [] }

/-- A table without soft-delete columns. -/
def tPlain : TableState :=
  { name := "t", schema := ["id", "name"],
    rows := [(1, [("id", Value.int 1), ("name", Value.str "x")])], nextId := 2 }

/-- The entity of the single row of tPlain, whose snapshot lacks the
soft-delete columns. -/
def entPlain : Entity :=
  { table := "t", id := 1, columns := ["id", "name"],
    data := [("id", Value.int 1), ("name", Value.str "x")] }

/-- A table with soft-delete columns whose single row is marked
deleted. -/
def tSoft : TableState :=
  { name := "t", schema := ["id", "deleted", "deleted_at"],
    rows := [(1, [("id", Value.int 1), ("deleted", Value.bool true),
      ("deleted_at", Value.ts 9)])], nextId := 2 }

/-- The entity of the soft-deleted row of tSoft. -/
def entSoft : Entity :=
  { table := "t", id := 1, columns := ["id", "deleted", "deleted_at"],
    data := [("id", Value.int 1), ("deleted", Value.bool true),
      ("deleted_at", Value.ts 9)] }

/-- A table with a version column at 3, for the optimistic-locking
scenario. -/
def tVer : TableState :=
  { name := "t", schema := ["id", "a", "version"],
    rows := [(1, [("id", Value.int 1), ("a", Value.int 10),
      ("version", Value.int 3)])], nextId := 2 }

/-- An entity snapshot of the tVer row carrying version 3. -/
def entVer : Entity :=
  { table := "t", id := 1, columns := ["id", "a", "version"],
    data := [("id", Value.int 1), ("a", Value.int 20), ("version", Value.int 3)] }

/-- A second, independently loaded snapshot of the same row, also
carrying the now-stale version 3. -/
def entVer2 : Entity :=
  { table := "t", id := 1, columns := ["id", "a", "version"],
    data := [("id", Value.int 1), ("a", Value.int 30), ("version", Value.int 3)] }

end DM

namespace DM

/-- Claim C1: begin the outer transaction, perform write A, begin a
nested transaction, perform write B, abort the nested level, commit
the outer level: write A is persisted and write B is absent; the
nested abort undoes only the work of the nested level. -/
theorem c1_nested_abort_preserves_outer_write
    (c0 : List Nat) (a b : Nat) (nm : String)
    (hb : b ∉ c0) (hab : b ≠ a) :
    (nestedAbortRun
        { conn := { committed := c0, pending := [], savepoints := [] },
          bound := false, depth := 0 } a b nm).conn.committed = c0 ++ [a] ∧
    b ∉ (nestedAbortRun
        { conn := { committed := c0, pending := [], savepoints := [] },
          bound := false, depth := 0 } a b nm).conn.committed := by
  simp [nestedAbortRun, txBeginOuter, txWrite, txBeginNested, txAbortNested,
    txCommitOuter, connSavepoint, connRollbackTo, connCommit, List.dropWhile,
    hb, hab]

/-- Concrete instance of C1: outer write 1 survives, nested write 2
is rolled back. -/
theorem c1_nested_abort_witness :
    ((2 : Nat) ∉ ([5] : List Nat) ∧ (2 : Nat) ≠ 1) ∧
    ((nestedAbortRun
        { conn := { committed := [5], pending := [], savepoints := [] },
          bound := false, depth := 0 } 1 2 "sp_1_1").conn.committed = [5] ++ [1] ∧
      2 ∉ (nestedAbortRun
        { conn := { committed := [5], pending := [], savepoints := [] },
          bound := false, depth := 0 } 1 2 "sp_1_1").conn.committed) :=
  ⟨⟨by decide, by decide⟩,
    c1_nested_abort_preserves_outer_write [5] 1 2 "sp_1_1" (by decide) (by decide)⟩

/-- Claim C2 fails on the code: with the TTL set to 0 and a stale
entry cached, inspect_schema serves the cached columns and never
queries the catalog, although the catalog meanwhile differs.  Line
230 treats ttl equal 0 as permanently valid, not as
always refetch. -/
theorem c2_ttl_zero_serves_stale_cache :
    inspectSchema 0 100 (fun _ => colsB) [(cacheKey "t", (0, colsA))] "t" =
      (colsA, [(cacheKey "t", (0, colsA))]) ∧ colsA ≠ colsB := by
  constructor
  · rfl
  · decide

/-- Claim C2 as amended: when an entry is cached, ttl equal 0 makes
it permanently valid (served without refetch on every lookup), and
for positive ttl it is served exactly while now minus fetched_at is
below ttl; otherwise the catalog is refetched and stored under the
current time. -/
theorem c2_cache_entry_validity
    (ttl now ts : Int) (catalog : String → List ColumnMeta)
    (cache : SchemaCache) (table : String) (infos : List ColumnMeta)
    (hfound : cacheFind cache (cacheKey table) = some (ts, infos)) :
    ((ttl = 0 ∨ now - ts < ttl) →
        inspectSchema ttl now catalog cache table = (infos, cache)) ∧
    (¬ (ttl = 0 ∨ now - ts < ttl) →
        inspectSchema ttl now catalog cache table =
          (catalog table, cacheStore cache (cacheKey table) (now, catalog table))) := by
  constructor <;> intro h <;> simp only [inspectSchema, hfound]
  · rw [if_pos h]
  · rw [if_neg h]

/-- Concrete instance of the amended C2: ttl 0, entry fetched at 5,
clock at 100, the cached columns are served unchanged. -/
theorem c2_cache_entry_validity_witness :
    cacheFind [(cacheKey "t", (5, colsA))] (cacheKey "t") = some (5, colsA) ∧
    inspectSchema 0 100 (fun _ => colsB) [(cacheKey "t", (5, colsA))] "t" =
      (colsA, [(cacheKey "t", (5, colsA))]) :=
  ⟨by decide,
    (c2_cache_entry_validity 0 100 5 (fun _ => colsB) [(cacheKey "t", (5, colsA))] "t"
      colsA (by decide)).1 (Or.inl rfl)⟩

/-- Helper: after the dict pop of _invalidate_schema_cache, the key
of the table is gone. -/
theorem cacheFind_cacheRemove (cache : SchemaCache) (table : String) :
    cacheFind (cacheRemove cache table) (cacheKey table) = none := by
  simp [cacheRemove, cacheFind, List.find?_filter]

/-- Claim C6 fails on the code: add_index is a DDL mutation against
the table, yet the schema-cache entry of the table survives it
untouched (add_index never calls _invalidate_schema_cache). -/
theorem c6_add_index_keeps_cache_entry :
    cacheFind
        (addIndex { issued := [], cache := [(cacheKey "t", (0, colsA))] } "t" "c" false).cache
        (cacheKey "t") = some (0, colsA) ∧
    (addIndex { issued := [], cache := [(cacheKey "t", (0, colsA))] } "t" "c" false).issued =
      [Stmt.createIndex false "t_c_idx" "t" "c"] := by
  constructor
  · rfl
  · rfl

/-- Claim C6 as amended: the column-set-changing DDL methods
(ensure_columns with a nonempty column map, create_table, drop_table,
drop_column, rename_column) remove the cache entry of the table
immediately, while the index- and constraint-level DDL methods
(add_index, add_unique) leave the schema cache untouched. -/
theorem c6_column_ddl_invalidates_index_ddl_does_not
    (st : DdlState) (table column oldName newName : String)
    (cols schema : List (String × String))
    (cascade unique : Bool) (ucols : List String) (cname : Option String)
    (hcols : cols ≠ []) :
    cacheFind (ensureColumns st table cols).cache (cacheKey table) = none ∧
    cacheFind (createTable st table schema).cache (cacheKey table) = none ∧
    cacheFind (dropTable st table cascade).cache (cacheKey table) = none ∧
    cacheFind (dropColumn st table column).cache (cacheKey table) = none ∧
    cacheFind (renameColumn st table oldName newName).cache (cacheKey table) = none ∧
    (addIndex st table column unique).cache = st.cache ∧
    (addUnique st table ucols cname).cache = st.cache := by
  refine ⟨?_, ?_, ?_, ?_, ?_, rfl, rfl⟩
  · simp only [ensureColumns, List.isEmpty_eq_true]
    rw [if_neg hcols]
    exact cacheFind_cacheRemove st.cache table
  · exact cacheFind_cacheRemove st.cache table
  · exact cacheFind_cacheRemove st.cache table
  · exact cacheFind_cacheRemove st.cache table
  · exact cacheFind_cacheRemove st.cache table

/-- Concrete instance of the amended C6: ensure_columns drops the
cached entry, add_index keeps the cache as it was. -/
theorem c6_column_ddl_witness :
    (([("a", "TEXT")] : List (String × String)) ≠ []) ∧
    cacheFind
        (ensureColumns { issued := [], cache := [(cacheKey "t", (0, colsA))] } "t"
          [("a", "TEXT")]).cache (cacheKey "t") = none ∧
    (addIndex { issued := [], cache := [(cacheKey "t", (0, colsA))] } "t" "c" true).cache =
      [(cacheKey "t", (0, colsA))] :=
  ⟨by decide,
    (c6_column_ddl_invalidates_index_ddl_does_not
      { issued := [], cache := [(cacheKey "t", (0, colsA))] } "t" "c" "o" "n"
      [("a", "TEXT")] [] false true [] none (by decide)).1,
    (c6_column_ddl_invalidates_index_ddl_does_not
      { issued := [], cache := [(cacheKey "t", (0, colsA))] } "t" "c" "o" "n"
      [("a", "TEXT")] [] false true [] none (by decide)).2.2.2.2.2.1⟩

/-- Helper: a fold of conditional rewrites that fire on no element
leaves the list unchanged. -/
theorem map_if_no_match {α : Type} (pred : α → Bool) (f : α → α) (l : List α)
    (h : ∀ p ∈ l, pred p = false) :
    l.map (fun p => if pred p then f p else p) = l := by
  induction l with
  | nil => rfl
  | cons x rest ih =>
      simp only [List.map_cons, h x (List.mem_cons_self x rest), if_false,
        Bool.false_eq_true]
      rw [ih (fun p hp => h p (List.mem_cons_of_mem x hp))]

/-- Helper: a conditional rewrite over a list with one marked element
rewrites exactly that element when the condition holds nowhere
else. -/
theorem map_ite_skeleton {α : Type} (pred : α → Bool) (f : α → α)
    (pre post : List α) (x : α)
    (hpre : ∀ p ∈ pre, pred p = false) (hpost : ∀ p ∈ post, pred p = false) :
    (pre ++ x :: post).map (fun p => if pred p then f p else p) =
      pre ++ (if pred x then f x else x) :: post := by
  rw [List.map_append, List.map_cons, map_if_no_match pred f pre hpre,
    map_if_no_match pred f post hpost]

/-- Helper: counting a predicate over a list with one marked element
when the predicate holds nowhere else. -/
theorem countP_skeleton {α : Type} (pred : α → Bool) (pre post : List α) (x : α)
    (hpre : ∀ p ∈ pre, pred p = false) (hpost : ∀ p ∈ post, pred p = false) :
    (pre ++ x :: post).countP pred = if pred x then 1 else 0 := by
  rw [List.countP_append, List.countP_cons]
  have h1 : pre.countP pred = 0 := by
    rw [List.countP_eq_zero]
    intro a ha
    simp [hpre a ha]
  have h2 : post.countP pred = 0 := by
    rw [List.countP_eq_zero]
    intro a ha
    simp [hpost a ha]
  rw [h1, h2]
  by_cases hx : pred x = true
  · simp [hx]
  · simp [hx]

/-- Helper: find with the key of a marked element skips every
element before it that misses the key. -/
theorem find_middle (pre post : List (Int × Row)) (i : Int) (r : Row)
    (hpre : ∀ p ∈ pre, (p.1 == i) = false) :
    (pre ++ (i, r) :: post).find? (fun p => p.1 == i) = some (i, r) := by
  induction pre with
  | nil => simp [List.find?_cons]
  | cons q rest ih =>
      rw [List.cons_append, List.find?_cons]
      simp only [hpre q (List.mem_cons_self q rest), Bool.false_eq_true, if_false]
      exact ih (fun p hp => hpre p (List.mem_cons_of_mem q hp))

/-- Helper: the missing-column loop of create touches only the
schema: the rows stay. -/
theorem addMissingColumns_rows (kwargs : Row) :
    ∀ t : TableState, (addMissingColumns t kwargs).rows = t.rows := by
  induction kwargs with
  | nil => intro t; rfl
  | cons p rest ih =>
      intro t
      unfold addMissingColumns
      split
      · exact ih t
      · exact ih _

/-- Helper: the missing-column loop of create leaves the next serial
id alone. -/
theorem addMissingColumns_nextId (kwargs : Row) :
    ∀ t : TableState, (addMissingColumns t kwargs).nextId = t.nextId := by
  induction kwargs with
  | nil => intro t; rfl
  | cons p rest ih =>
      intro t
      unfold addMissingColumns
      split
      · exact ih t
      · exact ih _

/-- Helper: the missing-column loop of create leaves the table name
alone. -/
theorem addMissingColumns_name (kwargs : Row) :
    ∀ t : TableState, (addMissingColumns t kwargs).name = t.name := by
  induction kwargs with
  | nil => intro t; rfl
  | cons p rest ih =>
      intro t
      unfold addMissingColumns
      split
      · exact ih t
      · exact ih _

/-- Helper: dict write at a key, read back at the same key. -/
theorem rowGet_rowSet_self (r : Row) (c : String) (v : Value) :
    rowGet (rowSet r c v) c = some v := by
  induction r with
  | nil => simp [rowSet, rowGet, List.find?_cons]
  | cons p rest ih =>
      by_cases h : (p.1 == c) = true
      · simp [rowSet, rowGet, List.find?_cons, h]
      · simp only [rowSet, h, Bool.false_eq_true, if_false]
        simpa [rowGet, List.find?_cons, h] using ih

/-- Helper: dict write at a key, read at another key. -/
theorem rowGet_rowSet_ne (r : Row) (c d : String) (v : Value) (h : (c == d) = false) :
    rowGet (rowSet r c v) d = rowGet r d := by
  induction r with
  | nil => simp [rowSet, rowGet, List.find?_cons, h]
  | cons p rest ih =>
      by_cases hp : (p.1 == c) = true
      · have hpd : (p.1 == d) = false := by
          have hc : p.1 = c := by simpa using hp
          simpa [hc] using h
        simp [rowSet, rowGet, List.find?_cons, hp, hpd, h]
      · simp only [rowSet, hp, Bool.false_eq_true, if_false]
        by_cases hd : (p.1 == d) = true
        · simp [rowGet, List.find?_cons, hd]
        · simpa [rowGet, List.find?_cons, hd] using ih

/-! ### Claim C10 -/

/-- Helper: a find_ids call whose conditions match no row returns no
ids, whatever the ordering, paging and soft-delete arguments are. -/
theorem findIds_no_match (t : TableState) (orderBy : List String)
    (excludeDeleted : Bool) (limit offsetN : Option Nat)
    (conds : List (String × CondVal))
    (h : ∀ p ∈ t.rows, condsMatch p.2 conds = false) :
    findIdsModel t orderBy excludeDeleted limit offsetN conds = [] := by
  have hbase : t.rows.filter (fun p => condsMatch p.2 conds) = [] := by
    rw [List.filter_eq_nil_iff]
    intro a ha
    simp [h a ha]
  have hord : ∀ ob : List String, orderRows ob [] = [] := by
    intro ob
    induction ob with
    | nil => rfl
    | cons s rest ih =>
        show sortLe _ (orderRows rest []) = []
        rw [ih]
        rfl
  cases limit <;> cases offsetN <;>
    simp [findIdsModel, hbase, hord]

/-- Claim C10: get_by, first and last return None, not an error, when
no row matches the conditions. -/
theorem c10_no_match_returns_none
    (t : TableState) (excludeDeleted : Bool) (conds : List (String × CondVal))
    (h : ∀ p ∈ t.rows, condsMatch p.2 conds = false) :
    firstModel t excludeDeleted conds = none ∧
    lastModel t excludeDeleted conds = none ∧
    getByModel t excludeDeleted conds = none := by
  refine ⟨?_, ?_, ?_⟩ <;>
    simp [firstModel, lastModel, getByModel,
      findIds_no_match t _ excludeDeleted (some 1) none conds h]

/-- Concrete instance of C10: one row with a = 1, conditions ask for
a = 2; all three lookups yield None. -/
theorem c10_no_match_witness :
    (∀ p ∈ tOneRow.rows,
      condsMatch p.2 [("a", CondVal.scalar (Value.int 2))] = false) ∧
    (firstModel tOneRow true [("a", CondVal.scalar (Value.int 2))] = none ∧
      lastModel tOneRow true [("a", CondVal.scalar (Value.int 2))] = none ∧
      getByModel tOneRow true [("a", CondVal.scalar (Value.int 2))] = none) :=
  ⟨by decide,
    c10_no_match_returns_none tOneRow true [("a", CondVal.scalar (Value.int 2))]
      (by decide)⟩

/-! ### Claim C4 -/

/-- Claim C4: a raising before-hook makes create propagate the error
with no row inserted (a lookup under the id the insert would have
used still finds nothing), while a raising after-hook is absorbed:
create succeeds for every after-hook registry, and the inserted row
stays committed and findable. -/
theorem c4_before_hook_blocks_insert_after_hook_does_not
    (hs : HookState) (t : TableState) (kwargs : Row)
    (hschema : t.schema.isEmpty = false)
    (hfresh : ∀ p ∈ t.rows, (p.1 == t.nextId) = false) :
    (∀ e, runBeforeHooks hs t.name kwargs = Except.error e →
      createModel hs t kwargs = Except.error (e, addMissingColumns t kwargs) ∧
      (addMissingColumns t kwargs).rows = t.rows ∧
      lookupById (addMissingColumns t kwargs) t.nextId = none) ∧
    (∀ row2, runBeforeHooks hs t.name kwargs = Except.ok row2 →
      ∀ g : List (String × List Hook),
        createModel { beforeHooks := hs.beforeHooks, afterHooks := g } t kwargs =
          Except.ok ({ addMissingColumns t kwargs with
              rows := t.rows ++ [(t.nextId, row2)], nextId := t.nextId + 1 },
            t.nextId) ∧
        lookupById { addMissingColumns t kwargs with
            rows := t.rows ++ [(t.nextId, row2)], nextId := t.nextId + 1 }
          t.nextId = some row2) := by
  constructor
  · intro e he
    refine ⟨?_, addMissingColumns_rows kwargs t, ?_⟩
    · simp [createModel, hschema, he]
    · unfold lookupById
      rw [addMissingColumns_rows kwargs t]
      have hnone : t.rows.find? (fun p => p.1 == t.nextId) = none := by
        rw [List.find?_eq_none]
        intro p hp
        simp [hfresh p hp]
      rw [hnone]
      rfl
  · intro row2 hok g
    have hb : runBeforeHooks { beforeHooks := hs.beforeHooks, afterHooks := g }
        t.name kwargs = Except.ok row2 := hok
    constructor
    · simp only [createModel, hschema, Bool.false_eq_true, if_false, hb]
      rw [addMissingColumns_rows kwargs t, addMissingColumns_nextId kwargs t]
    · unfold lookupById
      have := find_middle t.rows [] t.nextId row2 hfresh
      simp only [List.append_nil] at this ⊢
      rw [this]
      rfl

/-- Concrete instance of C4: a failing before-hook blocks the insert
of a row into a two-column table; under any after-hook registry the
inserted row stays committed. -/
theorem c4_hooks_witness :
    (tEmpty.schema.isEmpty = false ∧
      (∀ p ∈ tEmpty.rows, (p.1 == tEmpty.nextId) = false)) ∧
    ((∀ e, runBeforeHooks hsBoom tEmpty.name [("a", Value.int 4)] = Except.error e →
      createModel hsBoom tEmpty [("a", Value.int 4)] =
        Except.error (e, addMissingColumns tEmpty [("a", Value.int 4)]) ∧
      (addMissingColumns tEmpty [("a", Value.int 4)]).rows = tEmpty.rows ∧
      lookupById (addMissingColumns tEmpty [("a", Value.int 4)]) tEmpty.nextId = none) ∧
    (∀ row2, runBeforeHooks hsBoom tEmpty.name [("a", Value.int 4)] = Except.ok row2 →
      ∀ g : List (String × List Hook),
        createModel { beforeHooks := hsBoom.beforeHooks, afterHooks := g }
            tEmpty [("a", Value.int 4)] =
          Except.ok ({ addMissingColumns tEmpty [("a", Value.int 4)] with
              rows := tEmpty.rows ++ [(tEmpty.nextId, row2)],
              nextId := tEmpty.nextId + 1 }, tEmpty.nextId) ∧
        lookupById { addMissingColumns tEmpty [("a", Value.int 4)] with
            rows := tEmpty.rows ++ [(tEmpty.nextId, row2)],
            nextId := tEmpty.nextId + 1 } tEmpty.nextId = some row2)) :=
  ⟨⟨rfl, by decide⟩,
    c4_before_hook_blocks_insert_after_hook_does_not hsBoom tEmpty
      [("a", Value.int 4)] rfl (by decide)⟩

/-! ### Claim C9 -/

/-- Claim C9 fails on the code: with a before-hook registered for
every table that rejects every row, upsert still succeeds and writes
the row, and update_by_conditions still performs its update  -
neither consults the hook pipeline - while create under the same
registry is blocked by the hook. -/
theorem c9_upsert_and_update_skip_hooks :
    upsertModel hsReject tEmpty ["a"] [("a", Value.int 1)] none =
      Except.ok
        ({ name := "t", schema := ["id", "a"],
           rows := [(1, [("a", Value.int 1)])], nextId := 2 }, 1) ∧
    updateByConditionsModel hsReject tOneRow [("a", Value.int 9)] [] =
      ({ name := "t", schema := ["id", "a"],
         rows := [(1, [("id", Value.int 1), ("a", Value.int 9)])], nextId := 2 }, 1) ∧
    createModel hsReject tEmpty [("a", Value.int 1)] =
      Except.error ("Fehler im BEFORE-Hook (*): reject", tEmpty) := by
  refine ⟨rfl, rfl, rfl⟩

/-- Claim C9 as amended: only the insert path create consults the
hook pipeline; upsert and update_by_conditions behave identically
under any two hook registries, issuing their statements without
running hooks, while create propagates a failing before-hook. -/
theorem c9_hooks_only_on_insert_path
    (hs hs2 : HookState) (t : TableState) (conflictCols : List String)
    (values updates kwargs : Row) (updateCols : Option (List String))
    (conds : List (String × CondVal)) (e : String)
    (hschema : t.schema.isEmpty = false)
    (herr : runBeforeHooks hs t.name kwargs = Except.error e) :
    upsertModel hs t conflictCols values updateCols =
      upsertModel hs2 t conflictCols values updateCols ∧
    updateByConditionsModel hs t updates conds =
      updateByConditionsModel hs2 t updates conds ∧
    createModel hs t kwargs = Except.error (e, addMissingColumns t kwargs) := by
  refine ⟨rfl, rfl, ?_⟩
  simp [createModel, hschema, herr]

/-- Concrete instance of the amended C9: the rejecting registry and
the empty registry give upsert and update_by_conditions identical
results, and create is blocked. -/
theorem c9_hooks_witness :
    (tEmpty.schema.isEmpty = false ∧
      runBeforeHooks hsReject tEmpty.name [("a", Value.int 1)] =
        Except.error "Fehler im BEFORE-Hook (*): reject") ∧
    (upsertModel hsReject tEmpty ["a"] [("a", Value.int 1)] none =
      upsertModel emptyHooks tEmpty ["a"] [("a", Value.int 1)] none ∧
    updateByConditionsModel hsReject tEmpty [("a", Value.int 9)] [] =
      updateByConditionsModel emptyHooks tEmpty [("a", Value.int 9)] [] ∧
    createModel hsReject tEmpty [("a", Value.int 1)] =
      Except.error ("Fehler im BEFORE-Hook (*): reject",
        addMissingColumns tEmpty [("a", Value.int 1)])) :=
  ⟨⟨rfl, rfl⟩,
    c9_hooks_only_on_insert_path hsReject emptyHooks tEmpty
      ["a"] [("a", Value.int 1)] [("a", Value.int 9)] [("a", Value.int 1)]
      none [] "Fehler im BEFORE-Hook (*): reject" rfl rfl⟩

/-! ### Claim C8 -/

/-- Claim C8 fails on the code: on an entity whose table lacks the
deleted and deleted_at columns, restore_soft_deleted returns at once
without materializing them - the state is untouched and no column is
created. -/
theorem c8_restore_without_columns_does_nothing :
    restoreSoftDeleted tPlain entPlain = (tPlain, entPlain) ∧
    tPlain.schema.contains "deleted" = false ∧
    (restoreSoftDeleted tPlain entPlain).1.schema.contains "deleted" = false := by
  refine ⟨rfl, rfl, rfl⟩

/-- Claim C8 as amended: restore_soft_deleted flips deleted to FALSE
and deleted_at to NULL on the stored row and on the snapshot when
both columns are present, leaving the schema as it is, and does
nothing at all when either column is absent (it never materializes
them; soft_delete is the materializing path). -/
theorem c8_restore_flips_when_columns_exist_else_noop
    (t : TableState) (e : Entity) (pre post : List (Int × Row)) (r : Row) :
    ((e.columns.contains "deleted_at" = false ∨ e.columns.contains "deleted" = false) →
      restoreSoftDeleted t e = (t, e)) ∧
    (e.columns.contains "deleted_at" = true → e.columns.contains "deleted" = true →
      t.rows = pre ++ (e.id, r) :: post →
      (∀ p ∈ pre, (p.1 == e.id) = false) →
      (∀ p ∈ post, (p.1 == e.id) = false) →
      (restoreSoftDeleted t e).1.schema = t.schema ∧
      (restoreSoftDeleted t e).1.rows =
        pre ++ (e.id, rowSet (rowSet r "deleted_at" Value.null) "deleted"
          (Value.bool false)) :: post ∧
      rowGetById (restoreSoftDeleted t e).1 e.id "deleted" = some (Value.bool false) ∧
      rowGetById (restoreSoftDeleted t e).1 e.id "deleted_at" = some Value.null ∧
      rowGet (restoreSoftDeleted t e).2.data "deleted" = some (Value.bool false) ∧
      rowGet (restoreSoftDeleted t e).2.data "deleted_at" = some Value.null) := by
  constructor
  · intro h
    have hcond : (!(e.columns.contains "deleted_at") ||
        !(e.columns.contains "deleted")) = true := by
      rcases h with h | h <;> rw [h] <;> simp
    unfold restoreSoftDeleted
    rw [hcond]
    simp
  · intro hda hd hrows hpre hpost
    have hcond : (!(e.columns.contains "deleted_at") ||
        !(e.columns.contains "deleted")) = false := by
      rw [hda, hd]
      rfl
    have hrows1 : (restoreSoftDeleted t e).1.rows =
        pre ++ (e.id, rowSet (rowSet r "deleted_at" Value.null) "deleted"
          (Value.bool false)) :: post := by
      simp only [restoreSoftDeleted, hcond, Bool.false_eq_true, if_false]
      rw [hrows, map_ite_skeleton _ _ pre post _ hpre hpost]
      simp
    have hschema : (restoreSoftDeleted t e).1.schema = t.schema := by
      simp only [restoreSoftDeleted, hcond, Bool.false_eq_true, if_false]
    have hdata : (restoreSoftDeleted t e).2.data =
        rowSet (rowSet e.data "deleted_at" Value.null) "deleted" (Value.bool false) := by
      simp only [restoreSoftDeleted, hcond, Bool.false_eq_true, if_false]
    have hget : ∀ c, rowGetById (restoreSoftDeleted t e).1 e.id c =
        rowGet (rowSet (rowSet r "deleted_at" Value.null) "deleted"
          (Value.bool false)) c := by
      intro c
      unfold rowGetById lookupById
      rw [hrows1, find_middle pre post e.id _ hpre]
      rfl
    refine ⟨hschema, hrows1, ?_, ?_, ?_, ?_⟩
    · rw [hget]
      exact rowGet_rowSet_self _ _ _
    · rw [hget]
      rw [rowGet_rowSet_ne _ _ _ _ (by decide)]
      exact rowGet_rowSet_self _ _ _
    · rw [hdata]
      exact rowGet_rowSet_self _ _ _
    · rw [hdata]
      rw [rowGet_rowSet_ne _ _ _ _ (by decide)]
      exact rowGet_rowSet_self _ _ _

/-- Concrete instance of the amended C8: the soft-deleted row of
tSoft is flipped back by restore; the snapshot follows; the schema
is untouched. -/
theorem c8_restore_witness :
    (entSoft.columns.contains "deleted_at" = true ∧
      entSoft.columns.contains "deleted" = true ∧
      tSoft.rows = [] ++ (entSoft.id,
        [("id", Value.int 1), ("deleted", Value.bool true),
          ("deleted_at", Value.ts 9)]) :: []) ∧
    ((restoreSoftDeleted tSoft entSoft).1.schema = tSoft.schema ∧
      (restoreSoftDeleted tSoft entSoft).1.rows =
        [] ++ (entSoft.id, rowSet (rowSet
          [("id", Value.int 1), ("deleted", Value.bool true), ("deleted_at", Value.ts 9)]
          "deleted_at" Value.null) "deleted" (Value.bool false)) :: [] ∧
      rowGetById (restoreSoftDeleted tSoft entSoft).1 entSoft.id "deleted" =
        some (Value.bool false) ∧
      rowGetById (restoreSoftDeleted tSoft entSoft).1 entSoft.id "deleted_at" =
        some Value.null ∧
      rowGet (restoreSoftDeleted tSoft entSoft).2.data "deleted" =
        some (Value.bool false) ∧
      rowGet (restoreSoftDeleted tSoft entSoft).2.data "deleted_at" =
        some Value.null) :=
  ⟨⟨rfl, rfl, rfl⟩,
    (c8_restore_flips_when_columns_exist_else_noop tSoft entSoft [] []
      [("id", Value.int 1), ("deleted", Value.bool true), ("deleted_at", Value.ts 9)]).2
      rfl rfl rfl (by decide) (by decide)⟩

/-! ### Claim C5 -/

/-- Claim C5: with a version column present and the stored version
matching the snapshot, save_with_version succeeds (returns true) and
advances the stored version by one; a second snapshot still carrying
the now-stale version then gets false back - an ordinary value, not
an exception - and the stored row is left exactly as the first save
wrote it. -/
theorem c5_save_with_version_stale_retry
    (t : TableState) (e e2 : Entity) (vcol : String) (v : Int)
    (pre post : List (Int × Row)) (r : Row)
    (hrows : t.rows = pre ++ (e.id, r) :: post)
    (hpre : ∀ p ∈ pre, (p.1 == e.id) = false)
    (hpost : ∀ p ∈ post, (p.1 == e.id) = false)
    (hcol : e.columns.contains vcol = true)
    (hstored : rowGet r vcol = some (Value.int v))
    (hdata : rowGet e.data vcol = some (Value.int v))
    (h2col : e2.columns.contains vcol = true)
    (h2id : e2.id = e.id)
    (h2data : rowGet e2.data vcol = some (Value.int v)) :
    ∃ t1 e1,
      saveWithVersion t e vcol = Except.ok (t1, e1, true) ∧
      rowGetById t1 e.id vcol = some (Value.int (v + 1)) ∧
      rowGet e1.data vcol = some (Value.int (v + 1)) ∧
      saveWithVersion t1 e2 vcol = Except.ok (t1, e2, false) := by
  have hpre2 : ∀ p ∈ pre,
      (p.1 == e.id && rowGet p.2 vcol == some (Value.int v)) = false := by
    intro p hp
    simp [hpre p hp]
  have hpost2 : ∀ p ∈ post,
      (p.1 == e.id && rowGet p.2 vcol == some (Value.int v)) = false := by
    intro p hp
    simp [hpost p hp]
  refine ⟨{ t with rows := pre ++ (e.id,
      rowSet ((e.columns.filter (fun c => !(c == "id") && !(c == vcol))).foldl
        (fun acc c => rowSet acc c ((rowGet e.data c).getD Value.null)) r)
        vcol (Value.int (v + 1))) :: post },
    { e with data := rowSet e.data vcol (Value.int (v + 1)) }, ?_, ?_, ?_, ?_⟩
  · simp only [saveWithVersion, hcol, eq_self_iff_true, if_true, hdata,
      Option.getD_some]
    rw [hrows]
    rw [countP_skeleton _ pre post _ hpre2 hpost2,
      map_ite_skeleton _ _ pre post _ hpre2 hpost2]
    simp [hstored, vinc]
  · unfold rowGetById lookupById
    rw [find_middle pre post e.id _ hpre]
    simp [rowGet_rowSet_self]
  · simp [rowGet_rowSet_self]
  · have hnr : rowGet (rowSet
        ((e.columns.filter (fun c => !(c == "id") && !(c == vcol))).foldl
          (fun acc c => rowSet acc c ((rowGet e.data c).getD Value.null)) r)
        vcol (Value.int (v + 1))) vcol = some (Value.int (v + 1)) :=
      rowGet_rowSet_self _ _ _
    have hpre3 : ∀ p ∈ pre,
        (p.1 == e2.id && rowGet p.2 vcol == some (Value.int v)) = false := by
      intro p hp
      rw [h2id]
      simp [hpre p hp]
    have hpost3 : ∀ p ∈ post,
        (p.1 == e2.id && rowGet p.2 vcol == some (Value.int v)) = false := by
      intro p hp
      rw [h2id]
      simp [hpost p hp]
    have hmid2 : ((e.id : Int) == e2.id && rowGet (rowSet
        ((e.columns.filter (fun c => !(c == "id") && !(c == vcol))).foldl
          (fun acc c => rowSet acc c ((rowGet e.data c).getD Value.null)) r)
        vcol (Value.int (v + 1))) vcol == some (Value.int v)) = false := by
      rw [hnr]
      simp
    simp only [saveWithVersion, h2col, eq_self_iff_true, if_true, h2data,
      Option.getD_some]
    rw [countP_skeleton _ pre post _ hpre3 hpost3,
      map_ite_skeleton _ _ pre post _ hpre3 hpost3]
    simp [hmid2]

/-- Concrete instance of C5: the tVer row is at version 3; the first
save from a snapshot at version 3 succeeds and moves the row to
version 4; a second snapshot still at version 3 gets false and the
row stays as the first save left it. -/
theorem c5_save_with_version_witness :
    (tVer.rows = [] ++ (entVer.id,
        [("id", Value.int 1), ("a", Value.int 10), ("version", Value.int 3)]) :: [] ∧
      entVer.columns.contains "version" = true ∧
      rowGet [("id", Value.int 1), ("a", Value.int 10), ("version", Value.int 3)]
        "version" = some (Value.int 3) ∧
      rowGet entVer.data "version" = some (Value.int 3) ∧
      entVer2.columns.contains "version" = true ∧
      entVer2.id = entVer.id ∧
      rowGet entVer2.data "version" = some (Value.int 3)) ∧
    (∃ t1 e1,
      saveWithVersion tVer entVer "version" = Except.ok (t1, e1, true) ∧
      rowGetById t1 entVer.id "version" = some (Value.int (3 + 1)) ∧
      rowGet e1.data "version" = some (Value.int (3 + 1)) ∧
      saveWithVersion t1 entVer2 "version" = Except.ok (t1, entVer2, false)) :=
  ⟨⟨rfl, rfl, rfl, rfl, rfl, rfl, rfl⟩,
    c5_save_with_version_stale_retry tVer entVer entVer2 "version" 3 [] []
      [("id", Value.int 1), ("a", Value.int 10), ("version", Value.int 3)]
      rfl (by decide) (by decide) rfl rfl rfl rfl rfl rfl⟩

/-! ### Claim C7 -/

/-- Helper: decimal digits are below 10. -/
theorem digitsLE_lt (fuel : Nat) : ∀ n d, d ∈ digitsLE fuel n → d < 10 := by
  induction fuel with
  | zero =>
      intro n d h
      simp [digitsLE] at h
  | succ f ih =>
      intro n d h
      by_cases hn : n = 0
      · simp [digitsLE, hn] at h
      · simp only [digitsLE, hn, if_false, List.mem_cons] at h
        rcases h with h | h
        · subst h
          exact Nat.mod_lt _ (by norm_num)
        · exact ih _ _ h

/-- Helper: the little-endian digits of n evaluate back to n when
the fuel suffices. -/
theorem valLE_digitsLE (fuel : Nat) : ∀ n, n ≤ fuel → valLE (digitsLE fuel n) = n := by
  induction fuel with
  | zero =>
      intro n h
      have h0 : n = 0 := Nat.le_zero.mp h
      simp [h0, digitsLE, valLE]
  | succ f ih =>
      intro n h
      by_cases hn : n = 0
      · simp [digitsLE, hn, valLE]
      · have h1 : n / 10 < n := Nat.div_lt_self (Nat.pos_of_ne_zero hn) (by norm_num)
        have hdiv : n / 10 ≤ f := by omega
        simp only [digitsLE, hn, if_false, valLE, List.foldr_cons]
        have h2 := ih _ hdiv
        unfold valLE at h2
        rw [h2]
        exact Nat.mod_add_div n 10

/-- Helper: the Horner fold over the rendered digits recovers the
accumulator and the digit value. -/
theorem foldl_horner (l : List Nat) (h : ∀ d ∈ l, d < 10) : ∀ a : Nat,
    (l.reverse.map digitChar).foldl (fun x c => x * 10 + (c.toNat - 48)) a =
      a * 10 ^ l.length + valLE l := by
  induction l with
  | nil =>
      intro a
      simp [valLE]
  | cons d rest ih =>
      intro a
      have hd : (digitChar d).toNat - 48 = d := by
        have hlt : d < 10 := h d (List.mem_cons_self d rest)
        interval_cases d <;> rfl
      rw [List.reverse_cons, List.map_append, List.foldl_append]
      rw [ih (fun x hx => h x (List.mem_cons_of_mem d hx)) a]
      simp only [List.map_cons, List.map_nil, List.foldl_cons, List.foldl_nil, hd]
      simp only [valLE, List.foldr_cons, List.length_cons]
      ring

/-- Helper: decoding the decimal rendering of n gives back n. -/
theorem decodeDecimal_natRepr (n : Nat) : decodeDecimal (natRepr n).data = n := by
  by_cases hn : n = 0
  · subst hn
    decide
  · unfold natRepr
    rw [if_neg hn]
    show decodeDecimal ((digitsLE n n).reverse.map digitChar) = n
    unfold decodeDecimal
    rw [foldl_horner (digitsLE n n) (digitsLE_lt n n) 0]
    simp [valLE_digitsLE n n (le_refl n)]

/-- Helper: the decimal rendering is injective. -/
theorem natRepr_injective : Function.Injective natRepr := by
  intro a b h
  have h2 := congrArg (fun s => decodeDecimal s.data) h
  simpa [decodeDecimal_natRepr] using h2

/-- Helper: string append concatenates the character data. -/
theorem str_data_append (a b : String) : (a ++ b).data = a.data ++ b.data := by
  cases a
  cases b
  rfl

/-- Helper: for a fixed connection, the generated savepoint name
determines the millisecond reading. -/
theorem txSavepointName_inj (c : Nat) (a b : Nat)
    (h : txSavepointName a c = txSavepointName b c) : a = b := by
  apply natRepr_injective
  unfold txSavepointName at h
  have hd := congrArg String.data h
  simp only [str_data_append] at hd
  have h1 : (natRepr a).data ++ ("_".data ++ (natRepr c).data) =
      (natRepr b).data ++ ("_".data ++ (natRepr c).data) := by
    exact List.append_cancel_left (by simpa [List.append_assoc] using hd :
      "sp_".data ++ ((natRepr a).data ++ ("_".data ++ (natRepr c).data)) =
      "sp_".data ++ ((natRepr b).data ++ ("_".data ++ (natRepr c).data)))
  have h2 : (natRepr a).data = (natRepr b).data := List.append_cancel_right h1
  cases hra : natRepr a
  cases hrb : natRepr b
  rw [hra, hrb] at h2
  simp at h2
  exact congrArg String.mk h2

/-- Helper: a rendered digit is never the underscore. -/
theorem digitChar_ne_underscore (d : Nat) : digitChar d ≠ '_' := by
  unfold digitChar
  split <;> decide

/-- Helper: the decimal rendering of a natural number contains no
underscore. -/
theorem natRepr_no_underscore (n : Nat) : '_' ∉ (natRepr n).data := by
  unfold natRepr
  split
  · decide
  · intro hmem
    have hmem2 : '_' ∈ (digitsLE n n).reverse.map digitChar := hmem
    rw [List.mem_map] at hmem2
    obtain ⟨d, _, hd⟩ := hmem2
    exact digitChar_ne_underscore d hd

/-- Helper: a nested-transaction savepoint name (two number fields)
never equals an unnamed explicit savepoint name (one number field):
the former has an underscore after its first number, the latter has
none inside its number. -/
theorem tx_ne_explicit (ms connId ms2 : Nat) :
    txSavepointName ms connId ≠ explicitSavepointName ms2 := by
  intro h
  have hd := congrArg String.data h
  unfold txSavepointName explicitSavepointName at hd
  simp only [str_data_append] at hd
  have h1 : (natRepr ms).data ++ '_' :: (natRepr connId).data =
      (natRepr ms2).data := by
    simpa [List.append_assoc] using hd
  have hin : '_' ∈ (natRepr ms2).data := by
    rw [← h1]
    exact List.mem_append.mpr (Or.inr (List.mem_cons_self '_' (natRepr connId).data))
  exact natRepr_no_underscore ms2 hin

/-- Helper: the unnamed explicit savepoint name determines the
millisecond reading. -/
theorem explicitSavepointName_inj (a b : Nat)
    (h : explicitSavepointName a = explicitSavepointName b) : a = b := by
  apply natRepr_injective
  have hd := congrArg String.data h
  unfold explicitSavepointName at hd
  simp only [str_data_append] at hd
  have h2 : (natRepr a).data = (natRepr b).data := List.append_cancel_left hd
  cases hra : natRepr a
  cases hrb : natRepr b
  rw [hra, hrb] at h2
  simp at h2
  exact congrArg String.mk h2

/-- Claim C7 fails on the code: two nested-transaction savepoints
created on the same connection within the same millisecond receive
the same name, because the name depends only on the millisecond
clock reading and the identity of the connection object. -/
theorem c7_same_millisecond_names_collide :
    ¬ (txSavepointNames 7 [5, 5]).Nodup ∧
    txSavepointNames 7 [5, 5] = ["sp_5_7", "sp_5_7"] := by
  constructor
  · decide
  · rfl

/-- Claim C7 as amended: both name-generation paths - nested
transactions (line 893) and unnamed explicit savepoint calls
(line 931) - give distinct names on one connection whenever the
creation milliseconds differ, and a nested-transaction name can
never equal an unnamed explicit name, so the whole collection of
such savepoint names is duplicate-free under the distinct-
millisecond proviso; the original unconditional uniqueness claim
holds only under that proviso. -/
theorem c7_distinct_millis_give_distinct_names (connId : Nat) (times etimes : List Nat)
    (h : times.Nodup) (he : etimes.Nodup) :
    (txSavepointNames connId times).Nodup ∧
    (explicitSavepointNames etimes).Nodup ∧
    (∀ ms ms2 : Nat, txSavepointName ms connId ≠ explicitSavepointName ms2) ∧
    (txSavepointNames connId times ++ explicitSavepointNames etimes).Nodup := by
  have htx : (txSavepointNames connId times).Nodup := by
    unfold txSavepointNames
    exact h.map (fun a b hab => txSavepointName_inj connId a b hab)
  have hex : (explicitSavepointNames etimes).Nodup := by
    unfold explicitSavepointNames
    exact he.map (fun a b hab => explicitSavepointName_inj a b hab)
  refine ⟨htx, hex, fun ms ms2 => tx_ne_explicit ms connId ms2, ?_⟩
  refine List.Nodup.append htx hex ?_
  intro s hs hs2
  unfold txSavepointNames at hs
  unfold explicitSavepointNames at hs2
  rw [List.mem_map] at hs hs2
  obtain ⟨a, _, rfl⟩ := hs
  obtain ⟨b, _, hbeq⟩ := hs2
  exact tx_ne_explicit a connId b hbeq.symm

/-- Concrete instance of the amended C7: nested creations at
milliseconds 1 and 2 on connection 7 and unnamed explicit creations
at milliseconds 1 and 3 receive pairwise distinct names. -/
theorem c7_distinct_millis_witness :
    (([1, 2] : List Nat).Nodup ∧ ([1, 3] : List Nat).Nodup) ∧
    ((txSavepointNames 7 [1, 2]).Nodup ∧
      (explicitSavepointNames [1, 3]).Nodup ∧
      (∀ ms ms2 : Nat, txSavepointName ms 7 ≠ explicitSavepointName ms2) ∧
      (txSavepointNames 7 [1, 2] ++ explicitSavepointNames [1, 3]).Nodup) :=
  ⟨⟨by decide, by decide⟩,
    c7_distinct_millis_give_distinct_names 7 [1, 2] [1, 3] (by decide) (by decide)⟩

/-- Claim C3, evaluated at the failing input: pool mode with one free
connection, an outermost transaction whose body exits normally.  The
engine commit is issued and the thread state is reset to idle, but
_release_connection runs while the thread-local binding is still set,
so putconn is skipped: the pool comes back empty and the connection
is leaked instead of being returned to the broker. -/
theorem c3_pool_commit_does_not_return_connection :
    transactionPoolOuter
        { pool := [7], hasPool := true, localConn := none, depth := 0, commits := [] } =
      some { pool := [], hasPool := true, localConn := none, depth := 0, commits := [7] } := by
  decide

end DM
